import Mathlib

/-!
Shallow embedding of the printer-lifecycle core of the receipt-engine
repository (Go), covering the identity registry, the connection pool,
the print queue, printer discovery, the ESC/POS wire encoder and the
HTTP name-setting handler, together with proofs of the specified
properties.

Conventions:
* Go maps keyed by strings are embedded as association lists
  `List (String × _)`; `map[k]` is `List.lookup`, `delete(map, k)` is a
  filter on the key, insertion is an append of the new binding.
* Nondeterministic inputs of the code (fresh UUIDs, wall-clock
  timestamps, filesystem globs, driver results, the md5 function of the
  Go standard library) are passed in as explicit parameters.
* Fallible Go calls returning `error` are embedded as `Except String _`
  or `Option String` (`none` = nil error).
-/

namespace ReceiptEngine

/-! ## Identity registry (src/internal/registry/registry.go) -/

/-- Structure `registry.PrinterInfo`: basic printer information used at detection. -/
structure PrinterInfo where
  typ : String
  description : String
  device : String
  vid : Nat
  pid : Nat
  host : String
  port : Nat
  deriving Repr, DecidableEq

/-- Structure `registry.PrinterEntry`: the persisted record for one printer. -/
structure PrinterEntry where
  id : String
  identityKey : String
  typ : String
  vid : Nat
  pid : Nat
  device : String
  host : String
  port : Nat
  description : String
  name : String
  deriving Repr, DecidableEq

/-- In-memory registry state: the file path and the
`identity_key → entry` map (`Registry.data`), as an association list. -/
structure Registry where
  filePath : String
  data : List (String × PrinterEntry)
  deriving Repr, DecidableEq

/-- One uppercase hexadecimal digit. -/
def hexDigit (n : Nat) : Char :=
  match n with
  | 0 => '0' | 1 => '1' | 2 => '2' | 3 => '3' | 4 => '4'
  | 5 => '5' | 6 => '6' | 7 => '7' | 8 => '8' | 9 => '9'
  | 10 => 'A' | 11 => 'B' | 12 => 'C' | 13 => 'D' | 14 => 'E'
  | _ => 'F'

/-- Go `fmt.Sprintf("%04X", n)` for a `uint16` value: four uppercase hex
digits, zero padded. -/
def hex4 (n : Nat) : String :=
  String.mk [hexDigit (n / 4096 % 16), hexDigit (n / 256 % 16),
             hexDigit (n / 16 % 16), hexDigit (n % 16)]

/-- Function `generateIdentityKey` (registry.go): derives the registry key from a
printer's hardware coordinates; falls back to an md5 hash of the
description.  The md5 function comes from the Go standard library
(`crypto/md5`, external to the repository) and is passed in as the
parameter `md5hex`, standing for `fmt.Sprintf("%x", md5.Sum(...))`. -/
def generateIdentityKey (md5hex : String → String) (info : PrinterInfo) : String :=
  if info.typ = "usb" ∧ info.vid ≠ 0 ∧ info.pid ≠ 0 then
    "usb:" ++ hex4 info.vid ++ ":" ++ hex4 info.pid
  else if info.typ = "serial" ∧ info.device ≠ "" then
    "serial:" ++ info.device
  else if info.typ = "network" ∧ info.host ≠ "" then
    "network:" ++ info.host ++ ":" ++ toString info.port
  else
    "hash:" ++ md5hex info.description

/-! ### Persisted JSON document

`Registry.save` marshals `r.data` with `encoding/json`; `Registry.load`
unmarshals it back.  The JSON document is embedded as an association
list of field lists: each entry is serialized field by field following
the struct tags of `PrinterEntry` (`omitempty` drops zero-valued
optional fields), and parsing restores dropped fields to their zero
values, exactly as `encoding/json` does for this struct. -/

/-- A JSON field value of `PrinterEntry`: strings and integers only. -/
inductive JVal where
  | str (s : String)
  | num (n : Nat)
  deriving Repr, DecidableEq

/-- Serialization of one `PrinterEntry` into its JSON object
(field-name/value pairs, `omitempty` fields dropped when zero). -/
def encodeEntry (e : PrinterEntry) : List (String × JVal) :=
  [("id", JVal.str e.id), ("identity_key", JVal.str e.identityKey),
   ("type", JVal.str e.typ)]
  ++ (if e.vid ≠ 0 then [("vid", JVal.num e.vid)] else [])
  ++ (if e.pid ≠ 0 then [("pid", JVal.num e.pid)] else [])
  ++ (if e.device ≠ "" then [("device", JVal.str e.device)] else [])
  ++ (if e.host ≠ "" then [("host", JVal.str e.host)] else [])
  ++ (if e.port ≠ 0 then [("port", JVal.num e.port)] else [])
  ++ [("description", JVal.str e.description)]
  ++ (if e.name ≠ "" then [("name", JVal.str e.name)] else [])

/-- String field lookup during parsing; a missing field yields the Go
zero value `""`. -/
def getStr (fields : List (String × JVal)) (k : String) : String :=
  match fields.lookup k with
  | some (JVal.str s) => s
  | _ => ""

/-- Numeric field lookup during parsing; a missing field yields the Go
zero value `0`. -/
def getNum (fields : List (String × JVal)) (k : String) : Nat :=
  match fields.lookup k with
  | some (JVal.num n) => n
  | _ => 0

/-- Parsing of one JSON object back into a `PrinterEntry`. -/
def decodeEntry (f : List (String × JVal)) : PrinterEntry :=
  { id := getStr f "id", identityKey := getStr f "identity_key",
    typ := getStr f "type", vid := getNum f "vid", pid := getNum f "pid",
    device := getStr f "device", host := getStr f "host",
    port := getNum f "port", description := getStr f "description",
    name := getStr f "name" }

/-- Method `Registry.save`: the marshalled document (a JSON object mapping
identity keys to entry objects). -/
def saveDoc (r : Registry) : List (String × List (String × JVal)) :=
  r.data.map (fun kv => (kv.1, encodeEntry kv.2))

/-- Method `Registry.load`: parsing a document back into the data map. -/
def loadDoc (doc : List (String × List (String × JVal))) :
    List (String × PrinterEntry) :=
  doc.map (fun kv => (kv.1, decodeEntry kv.2))

/-- A filesystem operation performed by persistence code. -/
inductive FsOp where
  | write (path : String) (doc : List (String × List (String × JVal)))
  | rename (src : String) (dst : String)
  deriving Repr, DecidableEq

/-- Method `Registry.save` (registry.go lines 187-194): marshals the map and
writes it with `os.WriteFile(r.filePath, data, 0644)` — a single direct
in-place write, no temporary file and no rename. -/
def saveOps (r : Registry) : List FsOp :=
  [FsOp.write r.filePath (saveDoc r)]

/-- Method `Registry.GetPrinterID`: returns the existing id when the identity
key is known; otherwise records a fresh entry (the fresh UUID is the
parameter `fresh`) and saves.  `saveOk` is the outcome of the attempted
file write; the code ignores it ("Log error but don't fail - we still
return the ID").  Result: the id, the new registry state, and the
filesystem operations attempted. -/
def GetPrinterID (md5hex : String → String) (fresh : String) (saveOk : Bool)
    (r : Registry) (info : PrinterInfo) : String × Registry × List FsOp :=
  let key := generateIdentityKey md5hex info
  match r.data.lookup key with
  | some entry => (entry.id, r, [])
  | none =>
    let entry : PrinterEntry :=
      { id := fresh, identityKey := key, typ := info.typ, vid := info.vid,
        pid := info.pid, device := info.device, host := info.host,
        port := info.port, description := info.description, name := "" }
    let r' : Registry := { r with data := r.data ++ [(key, entry)] }
    (fresh, r', saveOps r')

/-- Helper for `Registry.SetPrinterName`: update the first entry whose
`ID` matches, returning `none` when no entry matches. -/
def setNameFirst (printerID name : String) :
    List (String × PrinterEntry) → Option (List (String × PrinterEntry))
  | [] => none
  | kv :: rest =>
    if kv.2.id = printerID then
      some ((kv.1, { kv.2 with name := name }) :: rest)
    else
      match setNameFirst printerID name rest with
      | some rest' => some (kv :: rest')
      | none => none

/-- Method `Registry.SetPrinterName`: sets the custom name on the entry with
the given id and saves; returns `false` when the id is unknown.  The
save outcome `saveOk` is ignored by the code. -/
def SetPrinterName (saveOk : Bool) (r : Registry) (printerID name : String) :
    Bool × Registry × List FsOp :=
  match setNameFirst printerID name r.data with
  | some data' =>
    let r' : Registry := { r with data := data' }
    (true, r', saveOps r')
  | none => (false, r, [])

/-- Method `Registry.GetPrinterName`: the custom name of the entry with the
given id, or `""` when unknown. -/
def GetPrinterName (r : Registry) (printerID : String) : String :=
  match r.data.find? (fun kv => kv.2.id = printerID) with
  | some kv => kv.2.name
  | none => ""

/-- Method `Registry.RemovePrinter`: deletes the entry with the given id and
saves; returns `false` when the id is unknown.  The save outcome
`saveOk` is ignored by the code. -/
def RemovePrinter (saveOk : Bool) (r : Registry) (printerID : String) :
    Bool × Registry × List FsOp :=
  match r.data.find? (fun kv => kv.2.id = printerID) with
  | some kv =>
    let r' : Registry := { r with data := r.data.filter (fun e => e.1 ≠ kv.1) }
    (true, r', saveOps r')
  | none => (false, r, [])

/-! ### Registry lemmas -/

set_option maxHeartbeats 1000000 in
/-- Parsing inverts serialization on a single entry: `omitempty` drops
only zero-valued fields, and parsing restores exactly those zeros. -/
theorem decodeEntry_encodeEntry (e : PrinterEntry) :
    decodeEntry (encodeEntry e) = e := by
  obtain ⟨i, k, t, vid, pid, dv, ho, po, de, na⟩ := e
  by_cases h1 : vid = 0 <;> by_cases h2 : pid = 0 <;>
    by_cases h3 : dv = "" <;> by_cases h4 : ho = "" <;>
    by_cases h5 : po = 0 <;> by_cases h6 : na = "" <;>
    simp [encodeEntry, decodeEntry, getStr, getNum, List.lookup,
      h1, h2, h3, h4, h5, h6]

/-- The persisted document, parsed back, is the data map itself. -/
theorem loadDoc_saveDoc (r : Registry) : loadDoc (saveDoc r) = r.data := by
  rcases r with ⟨p, data⟩
  simp only [loadDoc, saveDoc, List.map_map]
  induction data with
  | nil => rfl
  | cons kv rest ih => simp_all [decodeEntry_encodeEntry]

/-- Lookup distributes over append. -/
theorem lookup_append {α β : Type} [BEq α] (k : α) (l1 l2 : List (α × β)) :
    (l1 ++ l2).lookup k =
      match l1.lookup k with
      | some v => some v
      | none => l2.lookup k := by
  induction l1 with
  | nil => rfl
  | cons kv rest ih =>
    rcases kv with ⟨k1, v⟩
    cases h : k == k1 <;> simp [List.lookup, h, ih]

/-- When the identity key is already present, `GetPrinterID` returns the
stored id and changes nothing. -/
theorem GetPrinterID_hit {md5hex : String → String} {r : Registry}
    {info : PrinterInfo} {e : PrinterEntry} (fresh : String) (ok : Bool)
    (h : r.data.lookup (generateIdentityKey md5hex info) = some e) :
    GetPrinterID md5hex fresh ok r info = (e.id, r, []) := by
  unfold GetPrinterID
  dsimp only
  rw [h]

/-- After any `GetPrinterID` call, the identity key of `info` is bound
to an entry carrying the returned id. -/
theorem GetPrinterID_lookup_after (md5hex : String → String) (fresh : String)
    (ok : Bool) (r : Registry) (info : PrinterInfo) :
    ∃ e : PrinterEntry,
      ((GetPrinterID md5hex fresh ok r info).2.1).data.lookup
          (generateIdentityKey md5hex info) = some e ∧
        e.id = (GetPrinterID md5hex fresh ok r info).1 := by
  cases h : r.data.lookup (generateIdentityKey md5hex info) with
  | some e =>
    rw [GetPrinterID_hit fresh ok h]
    exact ⟨e, h, rfl⟩
  | none =>
    unfold GetPrinterID
    dsimp only
    rw [h]
    dsimp only
    refine ⟨⟨fresh, generateIdentityKey md5hex info, info.typ, info.vid,
      info.pid, info.device, info.host, info.port, info.description, ""⟩,
      ?_, rfl⟩
    simp only [lookup_append, h, List.lookup, beq_self_eq_true]

/-- Claim C2: `GetPrinterID` is idempotent — a second call with the same
`info` returns the same id and performs no insertion (the registry state
and the filesystem are untouched); the persisted file, parsed back,
reconstructs the identity-key-to-entry map exactly; and a second call on
a fresh `Registry` loaded from that file also returns the same id without
inserting. -/
theorem registry_GetPrinterID_idempotent_roundtrip
    (md5hex : String → String) (fresh1 fresh2 : String) (ok1 ok2 : Bool)
    (r : Registry) (info : PrinterInfo) (p2 : String) :
    (GetPrinterID md5hex fresh2 ok2 (GetPrinterID md5hex fresh1 ok1 r info).2.1 info
      = ((GetPrinterID md5hex fresh1 ok1 r info).1,
         (GetPrinterID md5hex fresh1 ok1 r info).2.1, []))
    ∧ loadDoc (saveDoc (GetPrinterID md5hex fresh1 ok1 r info).2.1)
      = ((GetPrinterID md5hex fresh1 ok1 r info).2.1).data
    ∧ (GetPrinterID md5hex fresh2 ok2
        ⟨p2, loadDoc (saveDoc (GetPrinterID md5hex fresh1 ok1 r info).2.1)⟩ info
      = ((GetPrinterID md5hex fresh1 ok1 r info).1,
         ⟨p2, ((GetPrinterID md5hex fresh1 ok1 r info).2.1).data⟩, [])) := by
  obtain ⟨e, he, hid⟩ := GetPrinterID_lookup_after md5hex fresh1 ok1 r info
  refine ⟨?_, loadDoc_saveDoc _, ?_⟩
  · rw [GetPrinterID_hit fresh2 ok2 he, hid]
  · have hload : (Registry.mk p2 (loadDoc (saveDoc
        (GetPrinterID md5hex fresh1 ok1 r info).2.1))).data.lookup
          (generateIdentityKey md5hex info) = some e := by
      show (loadDoc (saveDoc
        (GetPrinterID md5hex fresh1 ok1 r info).2.1)).lookup
          (generateIdentityKey md5hex info) = some e
      rw [loadDoc_saveDoc]
      exact he
    rw [GetPrinterID_hit fresh2 ok2 hload, hid, loadDoc_saveDoc]

/-- The write-temp-then-rename (atomic replace) persistence pattern the
spec describes: write the document to a temporary file, then rename it
onto the registry path. -/
def usesTempThenRename (path : String) (ops : List FsOp) : Prop :=
  ∃ tmp doc, ops = [FsOp.write tmp doc, FsOp.rename tmp path]

/-- Counterexample to claim C3: on a concrete mutation (a fresh USB
printer inserted into an empty registry at `registry.json`),
`Registry.save` does not write a temporary file and rename it into
place — it performs a single direct `os.WriteFile` on the registry
path. -/
theorem registry_no_temp_rename_counterexample :
    ¬ usesTempThenRename "registry.json"
      (GetPrinterID (fun s => s) "uuid-1" true ⟨"registry.json", []⟩
        ⟨"usb", "Epson", "", 1208, 3605, "", 0⟩).2.2 := by
  rintro ⟨tmp, doc, hEq⟩
  have hlen := congrArg List.length hEq
  simp [GetPrinterID, saveOps, generateIdentityKey, List.lookup] at hlen

/-- Claim C3 as amended: every Registry mutation (`GetPrinterID` on a
new key, `SetPrinterName`, `RemovePrinter`) persists the map by a single
direct in-place write of the serialized map to the registry file path
(no temporary file, no rename), and a failure of that persistence step
does not fail the mutation: the returned value and the in-memory state
are identical whether the write succeeds or fails. -/
theorem registry_mutations_direct_write_nonfatal
    (md5hex : String → String) (fresh : String) (ok ok' : Bool)
    (r : Registry) (info : PrinterInfo) (pid name : String) :
    (GetPrinterID md5hex fresh ok r info
      = GetPrinterID md5hex fresh ok' r info)
    ∧ (SetPrinterName ok r pid name = SetPrinterName ok' r pid name)
    ∧ (RemovePrinter ok r pid = RemovePrinter ok' r pid)
    ∧ ((GetPrinterID md5hex fresh ok r info).2.2 = []
       ∨ (GetPrinterID md5hex fresh ok r info).2.2
         = [FsOp.write r.filePath
             (saveDoc (GetPrinterID md5hex fresh ok r info).2.1)])
    ∧ ((SetPrinterName ok r pid name).2.2 = []
       ∨ (SetPrinterName ok r pid name).2.2
         = [FsOp.write r.filePath
             (saveDoc (SetPrinterName ok r pid name).2.1)])
    ∧ ((RemovePrinter ok r pid).2.2 = []
       ∨ (RemovePrinter ok r pid).2.2
         = [FsOp.write r.filePath
             (saveDoc (RemovePrinter ok r pid).2.1)]) := by
  refine ⟨rfl, rfl, rfl, ?_, ?_, ?_⟩
  · unfold GetPrinterID
    dsimp only
    cases r.data.lookup (generateIdentityKey md5hex info) with
    | some e => exact Or.inl rfl
    | none => exact Or.inr rfl
  · unfold SetPrinterName
    cases setNameFirst pid name r.data with
    | some d => exact Or.inr rfl
    | none => exact Or.inl rfl
  · unfold RemovePrinter
    cases r.data.find? (fun kv => kv.2.id = pid) with
    | some kv => exact Or.inr rfl
    | none => exact Or.inl rfl

/-! ## Print queue (src/internal/printer/queue.go)

A `PrintJob` carries an id, a printer id, a retry count and a status.
The queue is the slice `jobs`; `maxRetries` is fixed at construction.
The worker's `processNextJob` has two lock-protected phases: promote the
first `queued` job to `printing`, then — after the print attempt — re-
fetch the job by id and finalize it only if it is still `printing`.
Steps are labelled: `enqueue` (with the printer id and the time-based
job id as external inputs), `pick` (phase one) and `finish` (phase two,
with the attempt outcome as external input). -/

/-- Job status, `PrintJob.Status`. -/
inductive JStatus where
  | queued | printing | completed | failed
  deriving Repr, DecidableEq

/-- Structure `PrintJob` (the fields the state machine touches). -/
structure Job where
  id : Nat
  printerId : String
  retries : Nat
  status : JStatus
  deriving Repr, DecidableEq

/-- A step of the queue: an `Enqueue` call or one phase of the worker. -/
inductive QStep where
  | enqueue (printerId : String) (timeId : Nat)
  | pick
  | finish (jobId : Nat) (failed : Bool)
  deriving Repr, DecidableEq

/-- Phase one of `processNextJob`: promote the first `queued` job to
`printing` (jobs already printing, completed or failed are skipped). -/
def pickFirstQueued : List Job → List Job
  | [] => []
  | j :: rest =>
    if j.status = JStatus.queued then { j with status := JStatus.printing } :: rest
    else j :: pickFirstQueued rest

/-- Phase two of `processNextJob` applied to the re-fetched job: only a
job still in `printing` is updated; on failure the retry count is
incremented and the job goes to `failed` when it reaches `maxRetries`,
else back to `queued`; on success it goes to `completed`. -/
def finalizeJob (maxRetries : Nat) (failed : Bool) (j : Job) : Job :=
  if j.status = JStatus.printing then
    if failed then
      if j.retries + 1 ≥ maxRetries then
        { j with retries := j.retries + 1, status := JStatus.failed }
      else
        { j with retries := j.retries + 1, status := JStatus.queued }
    else
      { j with status := JStatus.completed }
  else j

/-- Re-fetch by id and finalize: the first job whose id matches is
updated via `finalizeJob`; if no job matches, nothing changes. -/
def finishById (maxRetries : Nat) (jobId : Nat) (failed : Bool) :
    List Job → List Job
  | [] => []
  | j :: rest =>
    if j.id = jobId then finalizeJob maxRetries failed j :: rest
    else j :: finishById maxRetries jobId failed rest

/-- One step of the queue state. `Enqueue` appends a fresh job in
`queued` with zero retries. -/
def queueStep (maxRetries : Nat) (jobs : List Job) : QStep → List Job
  | QStep.enqueue printerId timeId =>
      jobs ++ [{ id := timeId, printerId := printerId, retries := 0,
                 status := JStatus.queued }]
  | QStep.pick => pickFirstQueued jobs
  | QStep.finish jobId failed => finishById maxRetries jobId failed jobs

/-- The queue state after a sequence of steps from the empty queue. -/
def runQueue (maxRetries : Nat) (steps : List QStep) : List Job :=
  steps.foldl (queueStep maxRetries) []

/-- A status is terminal when it is `completed` or `failed`. -/
def JStatus.isTerminal : JStatus → Prop
  | JStatus.completed => True
  | JStatus.failed => True
  | _ => False

/-- The queue invariant: every live (queued/printing/completed) job has
strictly fewer than `maxRetries` retries, and every job has at most
`maxRetries` retries. -/
def QInv (maxRetries : Nat) (jobs : List Job) : Prop :=
  ∀ j ∈ jobs, j.retries ≤ maxRetries ∧
    (j.status ≠ JStatus.failed → j.retries < maxRetries)

theorem pickFirstQueued_length (l : List Job) :
    (pickFirstQueued l).length = l.length := by
  induction l with
  | nil => rfl
  | cons j0 rest ih =>
    by_cases hq : j0.status = JStatus.queued <;>
      simp [pickFirstQueued, hq, ih]

theorem finishById_length (mr jobId : Nat) (failed : Bool) (l : List Job) :
    (finishById mr jobId failed l).length = l.length := by
  induction l with
  | nil => rfl
  | cons j0 rest ih =>
    by_cases hid : j0.id = jobId <;>
      simp [finishById, hid, ih]

/-- Pointwise effect of phase one: each slot is unchanged, or was a
`queued` job now promoted to `printing`. -/
theorem pickFirstQueued_get (l : List Job) (k : Nat) (hk : k < l.length)
    (hk2 : k < (pickFirstQueued l).length) :
    (pickFirstQueued l).get ⟨k, hk2⟩ = l.get ⟨k, hk⟩
    ∨ ((l.get ⟨k, hk⟩).status = JStatus.queued ∧
       (pickFirstQueued l).get ⟨k, hk2⟩
         = { l.get ⟨k, hk⟩ with status := JStatus.printing }) := by
  induction l generalizing k with
  | nil => simp at hk
  | cons j0 rest ih =>
    by_cases hq : j0.status = JStatus.queued
    · cases k with
      | zero => exact Or.inr ⟨hq, by simp [pickFirstQueued, if_pos hq]⟩
      | succ k2 => exact Or.inl (by simp [pickFirstQueued, if_pos hq])
    · cases k with
      | zero => exact Or.inl (by simp [pickFirstQueued, if_neg hq])
      | succ k2 =>
        have hk3 : k2 < rest.length := by simp at hk; omega
        have hk4 : k2 < (pickFirstQueued rest).length := by
          rw [pickFirstQueued_length]; exact hk3
        have := ih k2 hk3 hk4
        simpa [pickFirstQueued, if_neg hq] using this

/-- Pointwise effect of phase two: each slot is unchanged, or has been
finalized. -/
theorem finishById_get (mr jobId : Nat) (failed : Bool) (l : List Job)
    (k : Nat) (hk : k < l.length)
    (hk2 : k < (finishById mr jobId failed l).length) :
    (finishById mr jobId failed l).get ⟨k, hk2⟩ = l.get ⟨k, hk⟩
    ∨ (finishById mr jobId failed l).get ⟨k, hk2⟩
        = finalizeJob mr failed (l.get ⟨k, hk⟩) := by
  induction l generalizing k with
  | nil => simp at hk
  | cons j0 rest ih =>
    by_cases hid : j0.id = jobId
    · cases k with
      | zero => exact Or.inr (by simp [finishById, if_pos hid])
      | succ k2 => exact Or.inl (by simp [finishById, if_pos hid])
    · cases k with
      | zero => exact Or.inl (by simp [finishById, if_neg hid])
      | succ k2 =>
        have hk3 : k2 < rest.length := by simp at hk; omega
        have hk4 : k2 < (finishById mr jobId failed rest).length := by
          rw [finishById_length]; exact hk3
        have := ih k2 hk3 hk4
        simpa [finishById, if_neg hid] using this

/-- Membership in the picked list comes from the original list, up to
promotion of one queued job. -/
theorem pickFirstQueued_mem (jobs : List Job) {j : Job}
    (h : j ∈ pickFirstQueued jobs) :
    j ∈ jobs ∨ ∃ j0 ∈ jobs, j0.status = JStatus.queued ∧
      j = { j0 with status := JStatus.printing } := by
  obtain ⟨⟨k, hk2⟩, hkj⟩ := List.mem_iff_get.mp h
  have hk : k < jobs.length := by
    rw [← pickFirstQueued_length]; exact hk2
  rcases pickFirstQueued_get jobs k hk hk2 with he | ⟨hs, he⟩
  · exact Or.inl (hkj ▸ he ▸ List.get_mem _ _ _)
  · exact Or.inr ⟨jobs.get ⟨k, hk⟩, List.get_mem _ _ _, hs, by rw [← hkj, he]⟩

/-- Membership in the finished list comes from the original list, up to
finalization of one job. -/
theorem finishById_mem {mr jobId : Nat} {failed : Bool} (jobs : List Job)
    {j : Job} (h : j ∈ finishById mr jobId failed jobs) :
    j ∈ jobs ∨ ∃ j0 ∈ jobs, j = finalizeJob mr failed j0 := by
  obtain ⟨⟨k, hk2⟩, hkj⟩ := List.mem_iff_get.mp h
  have hk : k < jobs.length := by
    rw [← finishById_length]; exact hk2
  rcases finishById_get mr jobId failed jobs k hk hk2 with he | he
  · exact Or.inl (hkj ▸ he ▸ List.get_mem _ _ _)
  · exact Or.inr ⟨jobs.get ⟨k, hk⟩, List.get_mem _ _ _, by rw [← hkj, he]⟩

/-- The invariant is preserved by every step. -/
theorem QInv_step {mr : Nat} (hmr : 0 < mr) {jobs : List Job}
    (hinv : QInv mr jobs) (s : QStep) : QInv mr (queueStep mr jobs s) := by
  cases s with
  | enqueue printerId timeId =>
    intro j hj
    simp only [queueStep, List.mem_append, List.mem_singleton] at hj
    rcases hj with hj | hj
    · exact hinv j hj
    · subst hj
      exact ⟨Nat.le_of_lt hmr, fun _ => hmr⟩
  | pick =>
    intro j hj
    rcases pickFirstQueued_mem _ hj with hj' | ⟨j0, hj0, _, he⟩
    · exact hinv j hj'
    · subst he
      rcases hinv j0 hj0 with ⟨h1, h2⟩
      exact ⟨h1, fun _ => h2 (by simp_all)⟩
  | finish jobId failed =>
    intro j hj
    rcases finishById_mem _ hj with hj' | ⟨j0, hj0, he⟩
    · exact hinv j hj'
    · subst he
      rcases hinv j0 hj0 with ⟨h1, h2⟩
      unfold finalizeJob
      by_cases hp : j0.status = JStatus.printing
      · have hlt : j0.retries < mr := h2 (by simp [hp])
        cases failed with
        | true =>
          by_cases hge : j0.retries + 1 ≥ mr
          · simp only [hp, if_pos, if_true, hge, ite_true]
            exact ⟨by omega, by simp⟩
          · simp only [hp, if_pos, if_true, hge, ite_false]
            exact ⟨by omega, fun _ => by omega⟩
        | false =>
          simp only [hp, if_pos, if_false, Bool.false_eq_true, ite_false]
          exact ⟨h1, fun _ => hlt⟩
      · simp only [if_neg hp]
        exact ⟨h1, h2⟩

/-- Every state reachable from the empty queue satisfies the invariant. -/
theorem QInv_runQueue {mr : Nat} (hmr : 0 < mr) (steps : List QStep) :
    QInv mr (runQueue mr steps) := by
  suffices h : ∀ jobs, QInv mr jobs → QInv mr (steps.foldl (queueStep mr) jobs) by
    exact h [] (by intro j hj; simp at hj)
  induction steps with
  | nil => exact fun jobs h => h
  | cons s rest ih => exact fun jobs h => ih _ (QInv_step hmr h s)

/-- Finalizing a job that is not `printing` leaves it unchanged. -/
theorem finalizeJob_of_not_printing {mr : Nat} {failed : Bool} {j : Job}
    (h : j.status ≠ JStatus.printing) : finalizeJob mr failed j = j := by
  unfold finalizeJob
  rw [if_neg h]

theorem queueStep_terminal_stable {mr : Nat} (jobs : List Job) (s : QStep)
    (k : Nat) (hk : k < jobs.length)
    (ht : (jobs.get ⟨k, hk⟩).status.isTerminal) :
    ∃ hk' : k < (queueStep mr jobs s).length,
      ((queueStep mr jobs s).get ⟨k, hk'⟩).status
        = (jobs.get ⟨k, hk⟩).status := by
  have hnq : (jobs.get ⟨k, hk⟩).status ≠ JStatus.queued := by
    intro hc; rw [hc] at ht; exact ht
  have hnp : (jobs.get ⟨k, hk⟩).status ≠ JStatus.printing := by
    intro hc; rw [hc] at ht; exact ht
  cases s with
  | enqueue printerId timeId =>
    refine ⟨by simp [queueStep]; omega, ?_⟩
    simp only [queueStep]
    rw [List.get_append _ hk]
  | pick =>
    have hk2 : k < (pickFirstQueued jobs).length := by
      rw [pickFirstQueued_length]; exact hk
    refine ⟨hk2, ?_⟩
    show ((pickFirstQueued jobs).get ⟨k, hk2⟩).status = (jobs.get ⟨k, hk⟩).status
    rcases pickFirstQueued_get jobs k hk hk2 with he | ⟨hs, _⟩
    · rw [he]
    · exact absurd hs hnq
  | finish jobId failed =>
    have hk2 : k < (finishById mr jobId failed jobs).length := by
      rw [finishById_length]; exact hk
    refine ⟨hk2, ?_⟩
    show ((finishById mr jobId failed jobs).get ⟨k, hk2⟩).status
      = (jobs.get ⟨k, hk⟩).status
    rcases finishById_get mr jobId failed jobs k hk hk2 with he | he
    · rw [he]
    · rw [he, finalizeJob_of_not_printing hnp]

/-- Claim C1: for every sequence of enqueues and worker steps of a print
queue constructed with `maxRetries > 0`: every job's retry count never
exceeds `maxRetries`; a job whose retry count has reached `maxRetries`
has status `failed` (never `queued`); and once a job is `completed` or
`failed`, no later step changes its status. -/
theorem queue_retry_invariants (mr : Nat) (hmr : 0 < mr)
    (steps : List QStep) :
    (∀ j ∈ runQueue mr steps, j.retries ≤ mr)
    ∧ (∀ j ∈ runQueue mr steps, j.retries = mr → j.status = JStatus.failed)
    ∧ (∀ (s : QStep) (k : Nat) (hk : k < (runQueue mr steps).length),
        ((runQueue mr steps).get ⟨k, hk⟩).status.isTerminal →
        ∃ hk' : k < (runQueue mr (steps ++ [s])).length,
          ((runQueue mr (steps ++ [s])).get ⟨k, hk'⟩).status
            = ((runQueue mr steps).get ⟨k, hk⟩).status) := by
  have hinv := QInv_runQueue hmr steps
  refine ⟨fun j hj => (hinv j hj).1, ?_, ?_⟩
  · intro j hj hmax
    rcases hinv j hj with ⟨_, h2⟩
    by_contra hne
    exact absurd (h2 hne) (by omega)
  · intro s k hk ht
    have : runQueue mr (steps ++ [s]) = queueStep mr (runQueue mr steps) s := by
      simp [runQueue, List.foldl_append]
    rw [this]
    exact queueStep_terminal_stable _ s k hk ht

/-- Witness for C1: a concrete run with `maxRetries = 1` — one job is
enqueued, picked and fails its attempt, ending `failed` with one
retry. -/
theorem queue_retry_invariants_witness :
    0 < 1 ∧
    (∀ j ∈ runQueue 1 [QStep.enqueue "p" 7, QStep.pick, QStep.finish 7 true],
      j.retries ≤ 1) := by
  have h := queue_retry_invariants 1 (by decide)
    [QStep.enqueue "p" 7, QStep.pick, QStep.finish 7 true]
  exact ⟨by decide, h.1⟩

/-! ## Connection pool (ConnectionPool, package printer)

`connections` is a map `printer_id → PrinterConnection`; the connection
type and the drivers (`ConnectUSB`, `ConnectSerial`, `ConnectNetwork`)
and the per-connection `Print`/`Close` methods are passed in as
parameters, since their behavior is device I/O. -/

/-- Structure `printer.Printer`: a detected printer. -/
structure Printer where
  id : String
  typ : String
  description : String
  device : String
  vid : Nat
  pid : Nat
  host : String
  port : Nat
  name : String
  deriving Repr, DecidableEq

/-- The pool's connection map. -/
abbrev Pool (Conn : Type) : Type := List (String × Conn)

/-- The macOS fallback inside `ConnectionPool.Connect`: try each serial
port in order at baud 9600 until one opens. -/
def tryFallbackPorts {Conn : Type}
    (openSerial : String → Nat → Except String Conn) :
    List String → Option Conn
  | [] => none
  | p :: rest =>
    match openSerial p 9600 with
    | Except.ok c => some c
    | Except.error _ => tryFallbackPorts openSerial rest

/-- Method `ConnectionPool.Connect`: no-op returning nil when an entry already
exists for `printer.ID`; otherwise opens a driver matching
`printer.Type` (with the darwin USB-to-serial fallback) and installs
it.  `os` is `runtime.GOOS`; `fallbackPorts` is the result of
`findSerialPorts`. -/
def poolConnect {Conn : Type}
    (openUSB : Nat → Nat → Except String Conn)
    (openSerial : String → Nat → Except String Conn)
    (openNetwork : String → Nat → Except String Conn)
    (os : String) (fallbackPorts : List String)
    (pool : Pool Conn) (printer : Printer) :
    Except String (Pool Conn) :=
  match List.lookup printer.id pool with
  | some _ => Except.ok pool
  | none =>
    let opened : Except String Conn :=
      if printer.typ = "usb" then
        match openUSB printer.vid printer.pid with
        | Except.ok c => Except.ok c
        | Except.error e =>
          if os = "darwin" then
            match tryFallbackPorts openSerial fallbackPorts with
            | some c => Except.ok c
            | none => Except.error e
          else Except.error e
      else if printer.typ = "serial" then openSerial printer.device 9600
      else if printer.typ = "network" then openNetwork printer.host printer.port
      else Except.error ("unsupported printer type: " ++ printer.typ)
    match opened with
    | Except.ok c => Except.ok (pool ++ [(printer.id, c)])
    | Except.error e => Except.error e

/-- Method `ConnectionPool.Print`: requires a pre-existing connection; invokes
the connection's own `Print` (which encodes and writes) and returns its
error verbatim.  `connPrint` is the driver's `Print` method; `Img` is
the bitmap type. -/
def poolPrint {Conn Img : Type} (connPrint : Conn → Img → Option String)
    (pool : Pool Conn) (printerId : String) (img : Img) : Option String :=
  match List.lookup printerId pool with
  | none => some ("printer not connected: " ++ printerId)
  | some c => connPrint c img

/-- Method `ConnectionPool.Disconnect`: closes and removes the entry, returning
the close error; nil no-op when absent. -/
def poolDisconnect {Conn : Type} (connClose : Conn → Option String)
    (pool : Pool Conn) (printerId : String) :
    Option String × Pool Conn :=
  match List.lookup printerId pool with
  | none => (none, pool)
  | some c => (connClose c, pool.filter (fun kv => kv.1 ≠ printerId))

/-- Method `ConnectionPool.IsConnected`. -/
def poolIsConnected {Conn : Type} (pool : Pool Conn) (printerId : String) :
    Bool :=
  (List.lookup printerId pool).isSome

/-- Removing a key from an association list by filtering makes lookup of
that key fail. -/
theorem lookup_filter_self {γ : Type} (pool : List (String × γ)) (pid : String) :
    List.lookup pid (pool.filter (fun kv => kv.1 ≠ pid)) = none := by
  induction pool with
  | nil => rfl
  | cons kv rest ih =>
    by_cases hk : kv.1 = pid
    · simpa [List.filter_cons, hk] using ih
    · have hne : (pid == kv.1) = false := by
        simp only [beq_eq_false_iff_ne, ne_eq]
        exact fun hc => hk hc.symm
      simpa [List.filter_cons, hk, List.lookup, hne] using ih

/-- Removing one key by filtering preserves lookup of every other key. -/
theorem lookup_filter_other {γ : Type} (pool : List (String × γ))
    (pid k : String) (hk : k ≠ pid) :
    List.lookup k (pool.filter (fun kv => kv.1 ≠ pid))
      = List.lookup k pool := by
  induction pool with
  | nil => rfl
  | cons kv rest ih =>
    by_cases hp : kv.1 = pid
    · have hne : (k == kv.1) = false := by
        simp only [beq_eq_false_iff_ne, ne_eq]
        rw [hp]
        exact hk
      have hne2 : (k == pid) = false := by
        simp only [beq_eq_false_iff_ne, ne_eq]
        exact hk
      simpa [List.filter_cons, hp, List.lookup, hne, hne2] using ih
    · cases hkk : k == kv.1 with
      | true => simp [List.filter_cons, hp, List.lookup, hkk]
      | false => simpa [List.filter_cons, hp, List.lookup, hkk] using ih

/-- Claim C4: `Connect` on an existing entry returns nil and leaves the
map unchanged (for every driver); `Print` without an entry returns an
error and never touches a driver, and with an entry returns exactly the
driver's result; `Disconnect` without an entry returns nil and changes
nothing, and with an entry returns the close result and removes exactly
that entry. -/
theorem pool_connect_print_disconnect {Conn Img : Type}
    (pool : Pool Conn) (printer : Printer) (printerId : String) (img : Img)
    (c : Conn) :
    ((List.lookup printer.id pool).isSome = true →
      ∀ (openUSB : Nat → Nat → Except String Conn)
        (openSerial openNetwork : String → Nat → Except String Conn)
        (os : String) (fallbackPorts : List String),
        poolConnect openUSB openSerial openNetwork os fallbackPorts
          pool printer = Except.ok pool)
    ∧ ((List.lookup printerId pool = none) →
      ∀ connPrint : Conn → Img → Option String,
        poolPrint connPrint pool printerId img
          = some ("printer not connected: " ++ printerId))
    ∧ ((List.lookup printerId pool = some c) →
      ∀ connPrint : Conn → Img → Option String,
        poolPrint connPrint pool printerId img = connPrint c img)
    ∧ ((List.lookup printerId pool = none) →
      ∀ connClose : Conn → Option String,
        poolDisconnect connClose pool printerId = (none, pool))
    ∧ ((List.lookup printerId pool = some c) →
      ∀ connClose : Conn → Option String,
        (poolDisconnect connClose pool printerId).1 = connClose c
        ∧ List.lookup printerId (poolDisconnect connClose pool printerId).2
            = none
        ∧ ∀ k : String, k ≠ printerId →
            List.lookup k (poolDisconnect connClose pool printerId).2
              = List.lookup k pool) := by
  refine ⟨?_, ?_, ?_, ?_, ?_⟩
  · intro h openUSB openSerial openNetwork os ports
    unfold poolConnect
    cases hl : List.lookup printer.id pool with
    | some c0 => rfl
    | none => rw [hl] at h; simp at h
  · intro h connPrint
    unfold poolPrint
    rw [h]
  · intro h connPrint
    unfold poolPrint
    rw [h]
  · intro h connClose
    unfold poolDisconnect
    rw [h]
  · intro h connClose
    unfold poolDisconnect
    rw [h]
    exact ⟨rfl, lookup_filter_self pool printerId,
      fun k hkne => lookup_filter_other pool printerId k hkne⟩

/-- Witness for C4 at a concrete pool `[("p1", 0)]` over `Conn = Nat`,
`Img = Unit`: connect is a no-op on `p1`, print on an absent `p2`
errors, print on `p1` returns the driver result `none`, disconnect on
`p2` is a nil no-op and disconnect on `p1` removes the entry. -/
theorem pool_connect_print_disconnect_witness :
    (poolConnect (fun _ _ => (Except.error "no usb" : Except String Nat))
        (fun _ _ => Except.error "no serial")
        (fun _ _ => Except.error "no net") "linux" []
        [("p1", 0)] ⟨"p1", "usb", "", "", 1, 1, "", 0, ""⟩
      = Except.ok [("p1", 0)])
    ∧ (poolPrint (fun (_ : Nat) (_ : Unit) => none) [("p1", 0)] "p2" ()
      = some "printer not connected: p2")
    ∧ (poolPrint (fun (_ : Nat) (_ : Unit) => none) [("p1", 0)] "p1" ()
      = none)
    ∧ (poolDisconnect (fun (_ : Nat) => none) [("p1", 0)] "p2"
      = (none, [("p1", 0)]))
    ∧ ((poolDisconnect (fun (_ : Nat) => none) [("p1", 0)] "p1").1 = none
       ∧ List.lookup "p1"
           (poolDisconnect (fun (_ : Nat) => none) [("p1", 0)] "p1").2
         = none) := by
  have h := pool_connect_print_disconnect
    ([("p1", 0)] : Pool Nat) ⟨"p1", "usb", "", "", 1, 1, "", 0, ""⟩ "p1" () 0
  have h2 := pool_connect_print_disconnect
    ([("p1", 0)] : Pool Nat) ⟨"p1", "usb", "", "", 1, 1, "", 0, ""⟩ "p2" () 0
  refine ⟨h.1 (by decide) _ _ _ _ _,
    h2.2.1 (by decide) _,
    h.2.2.1 (by decide) _,
    h2.2.2.2.1 (by decide) _, ?_, ?_⟩
  · exact (h.2.2.2.2 (by decide) _).1
  · exact (h.2.2.2.2 (by decide) _).2.1

/-! ## Discovery: background LAN sweep guard
(Manager.detectNetwork, package printer)

`detectNetwork` holds `networkScanMu` and launches
`scanNetworkInBackground` in a goroutine only when `networkScanStarted`
is still false, setting the flag first.  The state embedded here is the
`networkScanStarted` flag; each `DetectPrinters` call reaches
`detectNetwork` exactly once. -/

/-- The launch decision of one `detectNetwork` call: given the current
`networkScanStarted` flag, returns whether this call launches the
background sweep, and the flag afterwards. -/
def detectNetworkScanStart (started : Bool) : Bool × Bool :=
  if !started then (true, true) else (false, started)

/-- The launch decisions of `n` successive `DetectPrinters` calls,
starting from flag value `started`. -/
def runDetectLaunches (started : Bool) : Nat → List Bool
  | 0 => []
  | n + 1 =>
    let r := detectNetworkScanStart started
    r.1 :: runDetectLaunches r.2 n

/-- Once the flag is set, no later call launches. -/
theorem runDetectLaunches_true (n : Nat) :
    runDetectLaunches true n = List.replicate n false := by
  induction n with
  | zero => rfl
  | succ n ih => simp [runDetectLaunches, detectNetworkScanStart, ih,
      List.replicate]

/-- Claim C5: across every sequence of `DetectPrinters` calls in one
process (flag initially false), the background LAN sweep is launched by
the first call that reaches network detection and by no later call —
i.e. the launch decisions are `true` once, then `false` forever. -/
theorem network_sweep_launched_once (n : Nat) :
    runDetectLaunches false (n + 1) = true :: List.replicate n false := by
  simp [runDetectLaunches, detectNetworkScanStart,
    runDetectLaunches_true n]

/-! ## Stop semantics of Monitor and PrintQueue
(Monitor.Stop, package printer; PrintQueue.Stop, queue.go)

Each `Stop` body is embedded as the sequence of synchronization actions
it performs: `cancelCtx` is `cancel()` on the owned
`context.CancelFunc`; `waitGroup` is `wg.Wait()`, which blocks until
the worker goroutine (registered with `wg.Add(1)` and closed by
`defer wg.Done()`) has returned. -/

/-- A synchronization action performed by a `Stop` method. -/
inductive SyncAction where
  | cancelCtx
  | waitGroup
  deriving Repr, DecidableEq

/-- Method `Monitor.Stop` body: `m.cancel()` and nothing else — the `Monitor`
struct has no `sync.WaitGroup`, so the loop goroutine is not joined. -/
def monitorStopActions : List SyncAction :=
  [SyncAction.cancelCtx]

/-- Method `PrintQueue.Stop` body: `q.cancel()` then `q.wg.Wait()`. -/
def printQueueStopActions : List SyncAction :=
  [SyncAction.cancelCtx, SyncAction.waitGroup]

/-- Counterexample to claim C6: `Monitor.Stop` performs no wait on the
monitor loop — its body is exactly `m.cancel()`, so the claim that both
`Stop` methods wait for their loop to exit fails on the `Monitor`
half. -/
theorem monitor_stop_does_not_wait_counterexample :
    ¬ (SyncAction.waitGroup ∈ monitorStopActions
       ∧ SyncAction.waitGroup ∈ printQueueStopActions) := by
  intro h
  exact absurd h.1 (by decide)

/-- Claim C6 as amended: `Monitor.Stop` signals the cancellation token
and returns immediately without waiting for the monitor loop to exit,
while `PrintQueue.Stop` signals the token and then waits on the worker's
wait group, returning only after the worker goroutine has observed the
cancellation and terminated. -/
theorem monitor_queue_stop_actions :
    monitorStopActions = [SyncAction.cancelCtx]
    ∧ printQueueStopActions
      = [SyncAction.cancelCtx, SyncAction.waitGroup] :=
  ⟨rfl, rfl⟩

/-! ## Serial discovery (Manager.detectSerial, package printer)

The scanner builds a platform-specific candidate list (glob results are
external inputs) and proposes every candidate as a printer with no
open-probe ("Add all found ports without testing").  On Windows the
candidates are `COM1` through `COM32`. -/

/-- Go `strings.Contains`. -/
def strContains (s pat : String) : Bool :=
  (List.range (s.length + 1)).any (fun i => pat.isPrefixOf (s.drop i))

/-- The macOS skip patterns for serial nodes. -/
def skipPatterns : List String :=
  ["Bluetooth", "Modem", "SPP", "DialIn", "Callout", "KeySerial",
   "debug-console"]

/-- Go `filepath.Base` (slash-separated paths). -/
def baseName (p : String) : String :=
  if p = "" then "."
  else
    match (p.splitOn "/").filter (fun c => c ≠ "") with
    | [] => "/"
    | cs => cs.getLastD "/"

/-- The candidate serial device list of `Manager.detectSerial`, by
platform.  The glob results (`/dev/cu.*`, `/dev/tty.*`, `/dev/ttyUSB*`,
`/dev/ttyACM*`, `/dev/ttyS*`) are external inputs; on Windows the list
is `COM1..COM32` with no filesystem involved. -/
def detectSerialPorts (os : String)
    (cuGlob ttyGlob usbGlob acmGlob sGlob : List String) : List String :=
  if os = "darwin" then
    (cuGlob ++ ttyGlob).filter
      (fun port => !(skipPatterns.any (fun pat => strContains port pat)))
  else if os = "linux" then usbGlob ++ acmGlob ++ sGlob
  else if os = "windows" then
    (List.range 32).map (fun i => "COM" ++ toString (i + 1))
  else []

/-- The proposal loop of `Manager.detectSerial`: every candidate port is
turned into a printer (id via the registry, description
`Serial: <base>`) — no port is opened or probed, existence in the
candidate list is sufficient.  `freshAt` supplies the fresh UUIDs. -/
def proposeSerial (md5hex : String → String) (freshAt : Nat → String)
    (ok : Bool) (idx : Nat) (r : Registry) :
    List String → List Printer × Registry
  | [] => ([], r)
  | p :: rest =>
    let description := "Serial: " ++ baseName p
    let info : PrinterInfo :=
      { typ := "serial", description := description, device := p,
        vid := 0, pid := 0, host := "", port := 0 }
    let res := GetPrinterID md5hex (freshAt idx) ok r info
    let printer : Printer :=
      { id := res.1, typ := "serial", description := description,
        device := p, vid := 0, pid := 0, host := "", port := 0,
        name := GetPrinterName res.2.1 res.1 }
    let rec2 := proposeSerial md5hex freshAt ok (idx + 1) res.2.1 rest
    (printer :: rec2.1, rec2.2)

/-- Method `Manager.detectSerial`: candidates by platform, then propose all. -/
def detectSerial (md5hex : String → String) (freshAt : Nat → String)
    (ok : Bool) (r : Registry) (os : String)
    (cuGlob ttyGlob usbGlob acmGlob sGlob : List String) :
    List Printer × Registry :=
  proposeSerial md5hex freshAt ok 0 r
    (detectSerialPorts os cuGlob ttyGlob usbGlob acmGlob sGlob)

theorem proposeSerial_devices (md5hex : String → String)
    (freshAt : Nat → String) (ok : Bool) (ports : List String) :
    ∀ (idx : Nat) (r : Registry),
      ((proposeSerial md5hex freshAt ok idx r ports).1.map
        (fun p => p.device)) = ports
      ∧ ∀ p ∈ (proposeSerial md5hex freshAt ok idx r ports).1,
          p.typ = "serial" := by
  induction ports with
  | nil => intro idx r; exact ⟨rfl, by intro p hp; simp [proposeSerial] at hp⟩
  | cons p0 rest ih =>
    intro idx r
    constructor
    · simp only [proposeSerial, List.map_cons]
      rw [(ih (idx + 1) _).1]
    · intro p hp
      simp only [proposeSerial, List.mem_cons] at hp
      rcases hp with hp | hp
      · rw [hp]
      · exact (ih (idx + 1) _).2 p hp

/-- Claim C7: the serial scanner proposes every globbed candidate node
as a serial printer — the proposed list has exactly the candidate
devices in order, with no open-probe filtering — and on Windows the
candidate set is exactly `COM1` through `COM32`. -/
theorem serial_scan_no_probe_windows_com32 (md5hex : String → String)
    (freshAt : Nat → String) (ok : Bool) (r : Registry) (os : String)
    (cuGlob ttyGlob usbGlob acmGlob sGlob : List String) :
    (((detectSerial md5hex freshAt ok r os cuGlob ttyGlob usbGlob acmGlob
        sGlob).1.map (fun p => p.device))
      = detectSerialPorts os cuGlob ttyGlob usbGlob acmGlob sGlob)
    ∧ (∀ p ∈ (detectSerial md5hex freshAt ok r os cuGlob ttyGlob usbGlob
        acmGlob sGlob).1, p.typ = "serial")
    ∧ detectSerialPorts "windows" cuGlob ttyGlob usbGlob acmGlob sGlob
      = ["COM1", "COM2", "COM3", "COM4", "COM5", "COM6", "COM7", "COM8",
         "COM9", "COM10", "COM11", "COM12", "COM13", "COM14", "COM15",
         "COM16", "COM17", "COM18", "COM19", "COM20", "COM21", "COM22",
         "COM23", "COM24", "COM25", "COM26", "COM27", "COM28", "COM29",
         "COM30", "COM31", "COM32"] := by
  have h := proposeSerial_devices md5hex freshAt ok
    (detectSerialPorts os cuGlob ttyGlob usbGlob acmGlob sGlob) 0 r
  refine ⟨h.1, h.2, ?_⟩
  have hw : detectSerialPorts "windows" cuGlob ttyGlob usbGlob acmGlob sGlob
      = (List.range 32).map (fun i => "COM" ++ toString (i + 1)) := by
    unfold detectSerialPorts
    rw [if_neg (by decide), if_neg (by decide), if_pos rfl]
  rw [hw]
  decide

/-- Witness for C7 at a concrete Linux glob result: the single candidate
`/dev/ttyUSB0` is proposed verbatim. -/
theorem serial_scan_no_probe_witness :
    ((detectSerial (fun s => s) (fun _ => "uuid") true ⟨"reg.json", []⟩
        "linux" [] [] ["/dev/ttyUSB0"] [] []).1.map (fun p => p.device))
      = detectSerialPorts "linux" [] [] ["/dev/ttyUSB0"] [] [] :=
  (serial_scan_no_probe_windows_com32 (fun s => s) (fun _ => "uuid") true
    ⟨"reg.json", []⟩ "linux" [] [] ["/dev/ttyUSB0"] [] []).1

/-! ## ESC/POS wire encoder (EncodeImageToESCPOS, escpos.go)

The encoder is a pure function from a monochrome-thresholded image to a
byte stream: `Initialize` (`ESC @` = `1B 40`), one raster line per image
row (`ESC * 33 nL nH` + line bytes + `LF`), `Feed(3)` (three `0A`), and
`Cut` (`GS V 0` = `1D 56 00`).  An image is its dimensions plus a pixel
function returning the 16-bit r/g/b components Go's
`color.Color.RGBA()` yields. -/

/-- A bitmap image: width, height, and 16-bit RGB components per
pixel. -/
structure Image where
  width : Nat
  height : Nat
  pix : Nat → Nat → Nat × Nat × Nat

/-- Grayscale of a pixel: `(r + g + b) / 3`. -/
def grayAt (img : Image) (x y : Nat) : Nat :=
  ((img.pix x y).1 + (img.pix x y).2.1 + (img.pix x y).2.2) / 3

/-- A pixel is black (bit set) when inside the image and its grayscale
is below the 50% threshold 32768. -/
def bitAt (img : Image) (x y : Nat) : Bool :=
  decide (x < img.width) && decide (grayAt img x y < 32768)

/-- Bytes per raster line: `(width + 7) / 8`. -/
def bytesPerLine (img : Image) : Nat :=
  (img.width + 7) / 8

/-- One packed bitmap byte: bit `7 - (x % 8)` of byte `j` in row `y` is
set for each black pixel, as `imageToBitmap` does with `|= 1 << bit`. -/
def byteAt (img : Image) (y j : Nat) : Nat :=
  (List.range 8).foldl
    (fun acc b => if bitAt img (8 * j + b) y then acc ||| (1 <<< (7 - b))
                  else acc) 0

/-- The packed bytes of raster row `y`. -/
def lineBytes (img : Image) (y : Nat) : List Nat :=
  (List.range (bytesPerLine img)).map (byteAt img y)

/-- One raster line command: `ESC * 33 nL nH`, the line data, `LF`. -/
def escposLine (img : Image) (y : Nat) : List Nat :=
  [0x1B, 0x2A, 33, bytesPerLine img % 256, bytesPerLine img / 256 % 256]
  ++ lineBytes img y ++ [0x0A]

/-- Method `PrintImage`: all raster lines, top to bottom. -/
def printImageBytes (img : Image) : List Nat :=
  ((List.range img.height).map (escposLine img)).flatten

/-- Function `EncodeImageToESCPOS`: init sequence, raster image, three line feeds,
full cut. -/
def EncodeImageToESCPOS (img : Image) : List Nat :=
  [0x1B, 0x40] ++ printImageBytes img ++ [0x0A, 0x0A, 0x0A]
  ++ [0x1D, 0x56, 0x00]

/-- Claim C8: the encoder is deterministic (equal images yield equal
byte streams), and every output stream starts with the initialize
sequence `ESC @` (`1B 40`) and ends with exactly the three full-cut
bytes `1D 56 00`, with the raster data and the three blank-line feeds
in between. -/
theorem escpos_stream_structure (img : Image) :
    (∀ img2 : Image, img = img2 →
      EncodeImageToESCPOS img = EncodeImageToESCPOS img2)
    ∧ EncodeImageToESCPOS img
      = [0x1B, 0x40] ++ printImageBytes img ++ [0x0A, 0x0A, 0x0A]
        ++ [0x1D, 0x56, 0x00]
    ∧ (∃ rest : List Nat,
        EncodeImageToESCPOS img = 0x1B :: 0x40 :: rest)
    ∧ (∃ front : List Nat,
        EncodeImageToESCPOS img = front ++ [0x1D, 0x56, 0x00]) := by
  refine ⟨fun img2 h => by rw [h], rfl, ⟨_, rfl⟩, ?_⟩
  exact ⟨[0x1B, 0x40] ++ printImageBytes img ++ [0x0A, 0x0A, 0x0A],
    by simp [EncodeImageToESCPOS]⟩

/-- Witness for C8 at a concrete all-black 8x1 image: the stream ends in
the full-cut bytes. -/
theorem escpos_stream_structure_witness :
    ∃ front : List Nat,
      EncodeImageToESCPOS ⟨8, 1, fun _ _ => (0, 0, 0)⟩
        = front ++ [0x1D, 0x56, 0x00] :=
  (escpos_stream_structure ⟨8, 1, fun _ _ => (0, 0, 0)⟩).2.2.2

/-! ## Job ids of `PrintQueue.Enqueue` (queue.go)

`Enqueue` builds the job id as
`fmt.Sprintf("job_%d", time.Now().UnixNano())`.  The wall-clock reading
is an external input; a sequence of `Enqueue` calls with nanosecond
readings `ts` returns the ids `ts.map jobIdFor`. -/

/-- One decimal digit character. -/
def digitChar (d : Nat) : Char :=
  match d with
  | 0 => '0' | 1 => '1' | 2 => '2' | 3 => '3' | 4 => '4'
  | 5 => '5' | 6 => '6' | 7 => '7' | 8 => '8' | 9 => '9'
  | _ => '*'

/-- Go `fmt.Sprintf("%d", n)` for a natural number: decimal digits, most
significant first, `"0"` for zero. -/
def renderNat (n : Nat) : String :=
  if n = 0 then "0"
  else String.mk (((Nat.digits 10 n).map digitChar).reverse)

/-- The job id `Enqueue` returns for the nanosecond reading `t`. -/
def jobIdFor (t : Nat) : String :=
  "job_" ++ renderNat t

theorem digitChar_inj : ∀ d1 < 10, ∀ d2 < 10,
    digitChar d1 = digitChar d2 → d1 = d2 := by decide

theorem map_digitChar_inj : ∀ (l1 l2 : List Nat),
    (∀ d ∈ l1, d < 10) → (∀ d ∈ l2, d < 10) →
    l1.map digitChar = l2.map digitChar → l1 = l2 := by
  intro l1
  induction l1 with
  | nil =>
    intro l2 _ _ h
    cases l2 with
    | nil => rfl
    | cons b bs => simp at h
  | cons a as ih =>
    intro l2 h1 h2 h
    cases l2 with
    | nil => simp at h
    | cons b bs =>
      simp only [List.map_cons, List.cons.injEq] at h
      have ha : a < 10 := h1 a (by simp)
      have hb : b < 10 := h2 b (by simp)
      have hab : a = b := digitChar_inj a ha b hb h.1
      rw [hab, ih bs (fun d hd => h1 d (by simp [hd]))
        (fun d hd => h2 d (by simp [hd])) h.2]

/-- Decimal rendering is injective. -/
theorem renderNat_injective : Function.Injective renderNat := by
  intro a b h
  by_cases ha : a = 0 <;> by_cases hb : b = 0
  · rw [ha, hb]
  · exfalso
    rw [ha] at h
    unfold renderNat at h
    rw [if_pos rfl, if_neg hb] at h
    have hdata : ['0'] = ((Nat.digits 10 b).map digitChar).reverse := by
      have := congrArg String.data h
      simpa using this
    have hrev : (Nat.digits 10 b).map digitChar = ['0'] := by
      have := congrArg List.reverse hdata
      simpa using this.symm
    cases hd : Nat.digits 10 b with
    | nil => rw [hd] at hrev; simp at hrev
    | cons d ds =>
      rw [hd] at hrev
      cases ds with
      | nil =>
        simp only [List.map_cons, List.map_nil, List.cons.injEq] at hrev
        have hdlt : d < 10 :=
          Nat.digits_lt_base (by norm_num) (by rw [hd]; simp)
        have hd0 : d = 0 :=
          digitChar_inj d hdlt 0 (by norm_num) (by rw [hrev.1]; rfl)
        have h1 := (Nat.ofDigits_digits 10 b).symm
        rw [hd, hd0] at h1
        simp [Nat.ofDigits] at h1
        exact hb h1
      | cons d2 ds2 => simp at hrev
  · exfalso
    rw [hb] at h
    unfold renderNat at h
    rw [if_neg ha, if_pos rfl] at h
    have hdata : ((Nat.digits 10 a).map digitChar).reverse = ['0'] := by
      have := congrArg String.data h
      simpa using this
    have hrev : (Nat.digits 10 a).map digitChar = ['0'] := by
      have := congrArg List.reverse hdata
      simpa using this
    cases hd : Nat.digits 10 a with
    | nil => rw [hd] at hrev; simp at hrev
    | cons d ds =>
      rw [hd] at hrev
      cases ds with
      | nil =>
        simp only [List.map_cons, List.map_nil, List.cons.injEq] at hrev
        have hdlt : d < 10 :=
          Nat.digits_lt_base (by norm_num) (by rw [hd]; simp)
        have hd0 : d = 0 :=
          digitChar_inj d hdlt 0 (by norm_num) (by rw [hrev.1]; rfl)
        have h1 := (Nat.ofDigits_digits 10 a).symm
        rw [hd, hd0] at h1
        simp [Nat.ofDigits] at h1
        exact ha h1
      | cons d2 ds2 => simp at hrev
  · unfold renderNat at h
    rw [if_neg ha, if_neg hb] at h
    have hdata : ((Nat.digits 10 a).map digitChar).reverse
        = ((Nat.digits 10 b).map digitChar).reverse := by
      have := congrArg String.data h
      simpa using this
    have hmap : (Nat.digits 10 a).map digitChar
        = (Nat.digits 10 b).map digitChar := by
      have := congrArg List.reverse hdata
      simpa using this
    have hdig : Nat.digits 10 a = Nat.digits 10 b :=
      map_digitChar_inj _ _
        (fun d hd => Nat.digits_lt_base (by norm_num) hd)
        (fun d hd => Nat.digits_lt_base (by norm_num) hd) hmap
    calc a = Nat.ofDigits 10 (Nat.digits 10 a) :=
        (Nat.ofDigits_digits 10 a).symm
      _ = Nat.ofDigits 10 (Nat.digits 10 b) := by rw [hdig]
      _ = b := Nat.ofDigits_digits 10 b

/-- Time-based job ids are injective in the timestamp. -/
theorem jobIdFor_injective : Function.Injective jobIdFor := by
  intro a b h
  apply renderNat_injective
  have hdata := congrArg String.data h
  simp only [jobIdFor, String.data_append] at hdata
  exact String.ext (List.append_cancel_left hdata)

/-- Counterexample to claim C9: two `Enqueue` calls that read the same
`UnixNano` value (here both read 5) return the same id, so the ids of a
sequence of enqueues are not always pairwise distinct. -/
theorem enqueue_duplicate_id_counterexample :
    ¬ (([5, 5].map jobIdFor).Pairwise (fun a b => a ≠ b)) := by
  intro h
  simp only [List.map_cons, List.map_nil] at h
  exact (List.pairwise_cons.mp h).1 (jobIdFor 5) (by simp) rfl

/-- Claim C9 as amended: provided the `UnixNano` readings of successive
`Enqueue` calls are strictly increasing, the returned job ids are
pairwise distinct, and the timestamps they embed are strictly increasing
in enqueue order. -/
theorem enqueue_ids_distinct_of_monotonic_clock (ts : List Nat)
    (h : ts.Pairwise (fun a b => a < b)) :
    ((ts.map jobIdFor).Pairwise (fun a b => a ≠ b))
    ∧ ((ts.map jobIdFor).Pairwise
        (fun a b => ∀ x y, a = jobIdFor x → b = jobIdFor y → x < y)) := by
  constructor
  · refine List.Pairwise.map _ ?_ h
    intro x y hxy hEq
    have : x = y := jobIdFor_injective hEq
    omega
  · refine List.Pairwise.map _ ?_ h
    intro x y hxy x2 y2 hx2 hy2
    have h1 : x = x2 := jobIdFor_injective hx2
    have h2 : y = y2 := jobIdFor_injective hy2
    omega

/-- Witness for the amended C9 at the strictly increasing readings
`[1, 2]`. -/
theorem enqueue_ids_distinct_witness :
    ([1, 2] : List Nat).Pairwise (fun a b => a < b)
    ∧ (([1, 2].map jobIdFor).Pairwise (fun a b => a ≠ b)) := by
  refine ⟨by decide, ?_⟩
  exact (enqueue_ids_distinct_of_monotonic_clock [1, 2] (by decide)).1

/-! ## HTTP handler POST /printer/:id/name
(Server.handleSetPrinterName, src/internal/api/server.go)

The request body is bound with gin to a struct whose sole field has the
tags `json:"name" binding:"required"`.  `ShouldBindJSON` is modelled
from gin's validator semantics (external library): binding fails when
the field is absent or holds its zero value, so a missing or empty-
string `name` is rejected.  The parsed body is embedded as the optional
`name` field. -/

/-- gin `ShouldBindJSON` on a struct whose sole field `Name` carries the
tags `json:"name" binding:"required"`: an absent or empty `name` fails
validation. -/
def bindSetNameReq (body : Option String) : Except String String :=
  match body with
  | none => Except.error "name is required"
  | some n => if n = "" then Except.error "name is required" else Except.ok n

/-- Handler `Server.handleSetPrinterName`: 400 on bind failure (before touching
the manager), else `SetPrinterName`; 404 when the id is unknown, 200 on
success.  Result: HTTP status and the registry afterwards. -/
def handleSetPrinterName (saveOk : Bool) (r : Registry)
    (printerID : String) (body : Option String) : Nat × Registry :=
  match bindSetNameReq body with
  | Except.error _ => (400, r)
  | Except.ok n =>
    let res := SetPrinterName saveOk r printerID n
    if res.1 then (200, res.2.1) else (404, r)

theorem setNameFirst_some (pid name : String) :
    ∀ l : List (String × PrinterEntry), (∃ kv ∈ l, kv.2.id = pid) →
      ∃ l2, setNameFirst pid name l = some l2 := by
  intro l
  induction l with
  | nil => rintro ⟨kv, hkv, _⟩; simp at hkv
  | cons kv0 rest ih =>
    rintro ⟨kv, hkv, hid⟩
    by_cases h0 : kv0.2.id = pid
    · exact ⟨(kv0.1, { kv0.2 with name := name }) :: rest,
        by simp [setNameFirst, h0]⟩
    · have hm : ∃ kv ∈ rest, kv.2.id = pid := by
        rcases List.mem_cons.mp hkv with he | hm
        · exact absurd (he ▸ hid) h0
        · exact ⟨kv, hm, hid⟩
      obtain ⟨l2, hl2⟩ := ih hm
      exact ⟨kv0 :: l2, by simp [setNameFirst, h0, hl2]⟩

theorem getName_after_setNameFirst (pid name fp : String) :
    ∀ (l l2 : List (String × PrinterEntry)),
      setNameFirst pid name l = some l2 →
      GetPrinterName ⟨fp, l2⟩ pid = name := by
  intro l
  induction l with
  | nil => intro l2 h; simp [setNameFirst] at h
  | cons kv0 rest ih =>
    intro l2 h
    by_cases h0 : kv0.2.id = pid
    · simp only [setNameFirst, if_pos h0, Option.some.injEq] at h
      rw [← h]
      unfold GetPrinterName
      simp [List.find?, h0]
    · simp only [setNameFirst, if_neg h0] at h
      cases hrec : setNameFirst pid name rest with
      | some rest2 =>
        rw [hrec] at h
        simp only [Option.some.injEq] at h
        rw [← h]
        unfold GetPrinterName
        have hih := ih rest2 hrec
        unfold GetPrinterName at hih
        have hd : (decide (kv0.2.id = pid)) = false := by simp [h0]
        simp only [List.find?, hd]
        exact hih
      | none => rw [hrec] at h; exact absurd h (by simp)

/-- Claim C10: the handler rejects a body with a missing or empty `name`
with 400 before calling `SetPrinterName`, leaving the registry
unchanged; any 200 response comes from a non-empty name, so clearing an
override (setting `""`) is unreachable through this endpoint; yet the
registry API itself accepts `SetPrinterName(id, "")` for a known id and
clears the stored name. -/
theorem handler_name_required (saveOk : Bool) (r : Registry)
    (pid : String) (body : Option String) :
    ((body = none ∨ body = some "") →
      handleSetPrinterName saveOk r pid body = (400, r))
    ∧ (∀ r2 : Registry,
        handleSetPrinterName saveOk r pid body = (200, r2) →
        ∃ n : String, n ≠ "" ∧ body = some n
          ∧ r2 = (SetPrinterName saveOk r pid n).2.1)
    ∧ ((∃ kv ∈ r.data, kv.2.id = pid) →
        (SetPrinterName saveOk r pid "").1 = true
        ∧ GetPrinterName (SetPrinterName saveOk r pid "").2.1 pid = "") := by
  refine ⟨?_, ?_, ?_⟩
  · rintro (hb | hb) <;> rw [hb] <;> rfl
  · intro r2 h200
    cases hb : body with
    | none =>
      rw [hb] at h200
      exact absurd h200 (by simp [handleSetPrinterName, bindSetNameReq])
    | some n =>
      by_cases hn : n = ""
      · rw [hb, hn] at h200
        exact absurd h200 (by simp [handleSetPrinterName, bindSetNameReq])
      · refine ⟨n, hn, rfl, ?_⟩
        rw [hb] at h200
        unfold handleSetPrinterName bindSetNameReq at h200
        dsimp only at h200
        rw [if_neg hn] at h200
        dsimp only at h200
        by_cases hs : (SetPrinterName saveOk r pid n).1 = true
        · rw [if_pos hs] at h200
          exact (congrArg Prod.snd h200).symm
        · rw [if_neg hs] at h200
          exact absurd (congrArg Prod.fst h200) (by simp)
  · intro hmem
    obtain ⟨l2, hl2⟩ := setNameFirst_some pid "" r.data hmem
    constructor
    · unfold SetPrinterName
      rw [hl2]
    · unfold SetPrinterName
      rw [hl2]
      exact getName_after_setNameFirst pid "" r.filePath r.data l2 hl2

/-- Witness for C10: on a registry holding printer id `p1`, a missing
body is rejected with 400 and the state is unchanged, while the direct
registry call `SetPrinterName(p1, "")` succeeds and clears the name. -/
theorem handler_name_required_witness :
    (handleSetPrinterName true
        ⟨"f", [("k", ⟨"p1", "k", "usb", 1, 1, "", "", 0, "d", "Front"⟩)]⟩
        "p1" none
      = (400, ⟨"f", [("k", ⟨"p1", "k", "usb", 1, 1, "", "", 0, "d", "Front"⟩)]⟩))
    ∧ (SetPrinterName true
        ⟨"f", [("k", ⟨"p1", "k", "usb", 1, 1, "", "", 0, "d", "Front"⟩)]⟩
        "p1" "").1 = true := by
  have h := handler_name_required true
    ⟨"f", [("k", ⟨"p1", "k", "usb", 1, 1, "", "", 0, "d", "Front"⟩)]⟩
    "p1" none
  refine ⟨h.1 (Or.inl rfl), ?_⟩
  exact (h.2.2 ⟨("k", ⟨"p1", "k", "usb", 1, 1, "", "", 0, "d", "Front"⟩),
    by simp, rfl⟩).1

end ReceiptEngine
